import Mathlib

/-!
Verification development for the Hal focus-monitoring service.

The definitions below are a shallow embedding of the Python sources:

* `src/services/backend/src/vision/analysis.py` (`FocusAnalyzer._parse_analysis`,
  `FocusAnalyzer._default_response`),
* `src/services/backend/src/mind/evaluator.py` (`FocusEvaluator.__init__`,
  `FocusEvaluator.evaluate`, `FocusEvaluator._should_generate_response`,
  `FocusEvaluator._generate_response`, `FocusEvaluator._fallback_response`),
* `src/services/backend/src/config.py` (`get_focus_thresholds`),
* `src/services/interface/src/api_server.py` (`get_shared_state`,
  `update_shared_state`, the `POST /status` and `POST /focus-history` handlers).

Python values are modelled by the inductive `PyVal`; wall-clock instants are
passed explicitly (`time.time()` / `datetime.now()` become parameters); calls
into the external Ollama service become an oracle parameter returning
`Option String` (`none` models the call raising).  Machine arithmetic is exact
(`Int`/`Nat`), matching Python's unbounded integers.
-/

/-- Python runtime values as they flow through the service: JSON scalars,
strings, datetimes, lists and string-keyed dicts. -/
inductive PyVal where
  | none
  | bool (b : Bool)
  | int (n : Int)
  | str (s : String)
  | time (t : Nat)
  | list (l : List PyVal)
  | dict (d : List (String × PyVal))

/-- Lookup in an association list taking the LAST binding of a key, mirroring
Python dict construction where a later duplicate key overwrites an earlier
one. On lists with distinct keys (every dict reaching the code) this is plain
dict lookup. -/
def lookupLast (k : String) : List (String × PyVal) → Option PyVal
  | [] => Option.none
  | (k', v) :: rest =>
    match lookupLast k rest with
    | Option.none => if k' = k then some v else Option.none
    | some v' => some v'

/-- Python `str()` of a value as interpolated by an f-string; container
rendering is abbreviated because the service only ever formats scalars. -/
def pyStr : PyVal → String
  | .str s => s
  | .int n => toString n
  | .bool b => if b then "True" else "False"
  | .none => "None"
  | .time t => toString t
  | .list _ => "[...]"
  | .dict _ => "\x7b...\x7d"

/-! JSON decoding (`json.loads` in `_parse_analysis`).  The decoded text is
always a regex match `\{[^}]+\}`, i.e. `{` + a `}`-free body + `}`, so a
successful decode is always a flat object whose values are scalars or arrays
(a nested object would need a second `}` inside the body).  The grammar below
covers exactly that: objects of string keys with null / bool / number /
string / array values.  Numbers with an exponent part are not modelled;
fractional parts are truncated toward zero at decode time, matching the
`int()` conversion the caller immediately applies. -/

/-- JSON insignificant whitespace. -/
def isJsonWs (c : Char) : Bool :=
  c = ' ' ∨ c = '\t' ∨ c = '\n' ∨ c = '\r'

/-- Drop leading JSON whitespace. -/
def skipWs : List Char → List Char
  | [] => []
  | c :: rest => if isJsonWs c then skipWs rest else c :: rest

/-- Value of a hexadecimal digit. -/
def hexVal (c : Char) : Option Nat :=
  if c.isDigit then some (c.toNat - 48)
  else if 'a' ≤ c ∧ c ≤ 'f' then some (c.toNat - 87)
  else if 'A' ≤ c ∧ c ≤ 'F' then some (c.toNat - 55)
  else Option.none

/-- Single-character JSON escapes. -/
def escChar (c : Char) : Option Char :=
  if c = '"' then some '"'
  else if c = '\\' then some '\\'
  else if c = '/' then some '/'
  else if c = 'b' then some (Char.ofNat 8)
  else if c = 'f' then some (Char.ofNat 12)
  else if c = 'n' then some '\n'
  else if c = 'r' then some '\r'
  else if c = 't' then some '\t'
  else Option.none

/-- Body of a JSON string literal after the opening quote: returns the decoded
characters and the input after the closing quote.  Unescaped control
characters are rejected, as in Python's strict decoder. -/
def parseStrBody : Nat → List Char → Option (List Char × List Char)
  | 0, _ => Option.none
  | _, [] => Option.none
  | fuel + 1, c :: rest =>
    if c = '"' then some ([], rest)
    else if c = '\\' then
      match rest with
      | [] => Option.none
      | e :: rest2 =>
        if e = 'u' then
          match rest2 with
          | h1 :: h2 :: h3 :: h4 :: rest3 =>
            match hexVal h1, hexVal h2, hexVal h3, hexVal h4 with
            | some a, some b, some c2, some d =>
              match parseStrBody fuel rest3 with
              | some (body, rem) =>
                some (Char.ofNat (((a * 16 + b) * 16 + c2) * 16 + d) :: body, rem)
              | Option.none => Option.none
            | _, _, _, _ => Option.none
          | _ => Option.none
        else
          match escChar e with
          | some ec =>
            match parseStrBody fuel rest2 with
            | some (body, rem) => some (ec :: body, rem)
            | Option.none => Option.none
          | Option.none => Option.none
    else if c.toNat < 32 then Option.none
    else
      match parseStrBody fuel rest with
      | some (body, rem) => some (c :: body, rem)
      | Option.none => Option.none

/-- Numeric value of a run of decimal digits. -/
def digitsToNat (ds : List Char) : Nat :=
  ds.foldl (fun a c => a * 10 + (c.toNat - 48)) 0

/-- JSON number (without exponent): optional minus, integer part obeying the
no-leading-zero rule, optional fractional part.  The fractional part is
discarded, i.e. the value is truncated toward zero as `int()` would do. -/
def parseNum (cs : List Char) : Option (Int × List Char) :=
  let sgn := match cs with
    | '-' :: r => (true, r)
    | _ => (false, cs)
  match sgn.2 with
  | [] => Option.none
  | d :: _ =>
    if d.isDigit then
      let ds := sgn.2.takeWhile Char.isDigit
      let rest := sgn.2.dropWhile Char.isDigit
      if d = '0' ∧ ds.length > 1 then Option.none
      else
        let frac := match rest with
          | '.' :: r =>
            if (r.takeWhile Char.isDigit).isEmpty then (false, rest)
            else (true, r.dropWhile Char.isDigit)
          | _ => (true, rest)
        if frac.1 then
          match frac.2 with
          | e :: _ =>
            if e = 'e' ∨ e = 'E' then Option.none
            else some (if sgn.1 then -(digitsToNat ds : Int) else (digitsToNat ds : Int), frac.2)
          | [] => some (if sgn.1 then -(digitsToNat ds : Int) else (digitsToNat ds : Int), frac.2)
        else Option.none
    else Option.none

mutual

/-- A JSON value: string, array, `true`/`false`/`null`, or number. -/
def parseJVal : Nat → List Char → Option (PyVal × List Char)
  | 0, _ => Option.none
  | fuel + 1, cs =>
    match skipWs cs with
    | [] => Option.none
    | c :: rest =>
      if c = '"' then
        match parseStrBody (rest.length + 1) rest with
        | some (body, rem) => some (.str (String.mk body), rem)
        | Option.none => Option.none
      else if c = '[' then
        match skipWs rest with
        | ']' :: rem => some (.list [], rem)
        | _ =>
          match parseElems fuel rest with
          | some (vs, rem) => some (.list vs, rem)
          | Option.none => Option.none
      else if c = 't' then
        match rest with
        | 'r' :: 'u' :: 'e' :: rem => some (.bool true, rem)
        | _ => Option.none
      else if c = 'f' then
        match rest with
        | 'a' :: 'l' :: 's' :: 'e' :: rem => some (.bool false, rem)
        | _ => Option.none
      else if c = 'n' then
        match rest with
        | 'u' :: 'l' :: 'l' :: rem => some (.none, rem)
        | _ => Option.none
      else
        match parseNum (c :: rest) with
        | some (n, rem) => some (.int n, rem)
        | Option.none => Option.none

/-- Comma-separated array elements up to the closing bracket. -/
def parseElems : Nat → List Char → Option (List PyVal × List Char)
  | 0, _ => Option.none
  | fuel + 1, cs =>
    match parseJVal fuel cs with
    | some (v, rest) =>
      match skipWs rest with
      | ',' :: rest2 =>
        match parseElems fuel rest2 with
        | some (vs, rem) => some (v :: vs, rem)
        | Option.none => Option.none
      | ']' :: rest2 => some ([v], rest2)
      | _ => Option.none
    | Option.none => Option.none

/-- Members of a JSON object up to the closing brace. -/
def parseMembers : Nat → List Char → Option (List (String × PyVal) × List Char)
  | 0, _ => Option.none
  | fuel + 1, cs =>
    match skipWs cs with
    | '"' :: rest =>
      match parseStrBody (rest.length + 1) rest with
      | some (key, rest2) =>
        match skipWs rest2 with
        | ':' :: rest3 =>
          match parseJVal fuel rest3 with
          | some (v, rest4) =>
            match skipWs rest4 with
            | ',' :: rest5 =>
              match parseMembers fuel rest5 with
              | some (ms, rem) => some ((String.mk key, v) :: ms, rem)
              | Option.none => Option.none
            | '}' :: rest5 => some ([(String.mk key, v)], rest5)
            | _ => Option.none
          | Option.none => Option.none
        | _ => Option.none
      | Option.none => Option.none
    | _ => Option.none

end

/-- Python `json.loads` restricted to the object shapes the brace regex can
deliver (see above): the whole input must be one object, with nothing but
whitespace around it. -/
def jsonLoads (cs : List Char) : Option (List (String × PyVal)) :=
  match skipWs cs with
  | '{' :: rest =>
    match skipWs rest with
    | '}' :: rem => if (skipWs rem).isEmpty then some [] else Option.none
    | _ =>
      match parseMembers (cs.length + 1) rest with
      | some (ms, rem) => if (skipWs rem).isEmpty then some ms else Option.none
      | Option.none => Option.none
  | _ => Option.none

/-! The two regular expressions of `_parse_analysis`. -/

/-- Attempt of `re.search(r"\{[^}]+\}", text)` anchored at the current
position: a `{`, then a nonempty run of non-`}` characters, then `}`.  The
greedy body either reaches a `}` (success) or the end of input; shorter
backtracks are always followed by a non-`}` character, so position-wise
failure is total, as encoded here. -/
def matchBraceAt : List Char → Option (List Char)
  | [] => Option.none
  | c :: rest =>
    if c = '{' then
      let body := rest.takeWhile (fun x => x ≠ '}')
      if body.isEmpty then Option.none
      else
        match rest.dropWhile (fun x => x ≠ '}') with
        | '}' :: _ => some ('{' :: body ++ ['}'])
        | _ => Option.none
    else Option.none

/-- Leftmost match of `\{[^}]+\}` in the text (Python `re.search`). -/
def searchBrace : List Char → Option (List Char)
  | [] => Option.none
  | c :: rest =>
    match matchBraceAt (c :: rest) with
    | some m => some m
    | Option.none => searchBrace rest

/-- ASCII word character, the class `\w` splits `\b` boundaries on. -/
def isWordChar (c : Char) : Bool :=
  c.isAlphanum ∨ c = '_'

/-- First capture of `re.findall(r"\b(\d{1,3})\b", text)`: the leftmost
maximal digit run of length one to three flanked by word boundaries.  `prev`
is the character before the current position (`none` at the start of the
text). -/
def findNumber : Option Char → List Char → Option (List Char)
  | _, [] => Option.none
  | prev, c :: rest =>
    if c.isDigit && (match prev with | Option.none => true | some p => ! isWordChar p) then
      let run := c :: rest.takeWhile Char.isDigit
      let after := (rest.dropWhile Char.isDigit).head?
      if decide (run.length ≤ 3) && (match after with | Option.none => true | some a => ! isWordChar a) then
        some run
      else findNumber (some c) rest
    else findNumber (some c) rest

/-- Python `int()` applied to a string: optional surrounding whitespace,
optional sign, then a nonempty digit run. -/
def pyIntOfStr (s : String) : Option Int :=
  let cs := s.data.dropWhile isJsonWs
  let cs := (cs.reverse.dropWhile isJsonWs).reverse
  let sgn := match cs with
    | '-' :: r => (true, r)
    | '+' :: r => (false, r)
    | _ => (false, cs)
  if sgn.2.isEmpty ∨ ¬ sgn.2.all Char.isDigit then Option.none
  else some (if sgn.1 then -(digitsToNat sgn.2 : Int) else (digitsToNat sgn.2 : Int))

/-- Python `int()` on a decoded JSON value; `none` models the conversion
raising (`TypeError`/`ValueError`). -/
def pyInt : PyVal → Option Int
  | .int n => some n
  | .bool b => some (if b then 1 else 0)
  | .str s => pyIntOfStr s
  | _ => Option.none

/-- Clamping step of `_parse_analysis`: `max(0, min(100, focus_score))`. -/
def clampScore (n : Int) : Int :=
  max 0 (min 100 n)

/-- The threshold classification chain shared by
`FocusAnalyzer._parse_analysis` and `FocusEvaluator.evaluate`:
`GREEN` for `score >= green_threshold`, else `YELLOW` for
`score >= yellow_threshold`, else `RED`. -/
def classifyScore (g y score : Int) : String :=
  if score ≥ g then "GREEN"
  else if score ≥ y then "YELLOW"
  else "RED"

/-- Result dict of `_parse_analysis` / `_default_response`.  `observations`
is whatever value was decoded, hence a `PyVal`. -/
structure AnalysisResult where
  focus_score : Int
  state : String
  observations : PyVal
  focused : Bool

/-- `FocusAnalyzer._default_response(reason)`. -/
def defaultResponse (reason : String) : AnalysisResult :=
  { focus_score := 50, state := "YELLOW", observations := .str reason, focused := false }

/-- The try-block of `_parse_analysis` before clamping: extract a score and
observation text; `none` models any step raising (JSON decode failure or a
failing `int()` conversion). -/
def extractScoreObs (cs : List Char) : Option (Int × PyVal) :=
  match searchBrace cs with
  | some m =>
    match jsonLoads m with
    | some data =>
      match pyInt ((lookupLast "focus_score" data).getD (.int 50)) with
      | some n => some (n, (lookupLast "observations" data).getD (.str "No details provided"))
      | Option.none => Option.none
    | Option.none => Option.none
  | Option.none =>
    let score : Int := match findNumber Option.none cs with
      | some ds => (digitsToNat ds : Int)
      | Option.none => 50
    some (score, .str (String.mk (cs.take 200)))

/-- `FocusAnalyzer._parse_analysis(result_text)` with the analyzer's
configured thresholds `g`/`y`: extract, clamp, classify; on any exception
fall back to `_default_response("Failed to parse analysis")`. -/
def parseAnalysis (g y : Int) (raw : String) : AnalysisResult :=
  match extractScoreObs raw.data with
  | some p =>
    let score := clampScore p.1
    { focus_score := score, state := classifyScore g y score,
      observations := p.2, focused := score ≥ g }
  | Option.none => defaultResponse "Failed to parse analysis"


/-! The focus evaluator (`FocusEvaluator` in `mind/evaluator.py`).  The
mutable session attributes set in `__init__` form `EvalState`; `time.time()`
becomes the explicit `now : Int`; the Ollama text-generation call becomes the
oracle `gen : String → String → Option String` (context and persona in,
generated text out, `none` when the call raises). -/

/-- Session state of `FocusEvaluator` (`__init__`). -/
structure EvalState where
  green_threshold : Int
  yellow_threshold : Int
  current_state : String
  last_score : Option Int
  yellow_since : Option Int
  last_response_time : Option Int
  response_cooldown : Int
deriving DecidableEq

/-- Attribute initialisation in `FocusEvaluator.__init__` once the two
thresholds are known: state starts `GREEN`, no score, no timers, cooldown
hardcoded to 30 seconds. -/
def initEvalState (g y : Int) : EvalState :=
  { green_threshold := g, yellow_threshold := y, current_state := "GREEN",
    last_score := Option.none, yellow_since := Option.none,
    last_response_time := Option.none, response_cooldown := 30 }

/-- `FocusEvaluator._fallback_response(persona)`. -/
def fallbackResponse (persona : String) : String :=
  if persona = "hal" then "I\x27m afraid I can\x27t let you continue this distraction, Dave."
  else if persona = "sarcastic_friend" then
    "Oh sure, take your time. It\x27s not like you have work to do or anything."
  else if persona = "motivational_coach" then "Hey! You\x27ve got this! Let\x27s get back on track!"
  else if persona = "drill_sergeant" then "Back to work, soldier! No excuses!"
  else "Please return to your work."

/-- Post-processing of generated text in `_generate_response`: strip, split on
periods, keep at most two sentences. -/
def cleanupResponse (text : String) : String :=
  let text := text.trim
  let sentences := text.splitOn "."
  if sentences.length > 2 then String.intercalate "." (sentences.take 2) ++ "." else text

/-- `FocusEvaluator._generate_response(context, persona)`: on a successful
external call, clean up the text; when the call raises, substitute the
persona fallback. The result is always a string, never an exception. -/
def generateResponse (gen : String → String → Option String) (context persona : String) : String :=
  match gen context persona with
  | some t => cleanupResponse t
  | Option.none => fallbackResponse persona

/-- `FocusEvaluator._should_generate_response()` at instant `now`. -/
def shouldGenerateResponse (s : EvalState) (now : Int) : Bool :=
  match s.last_response_time with
  | Option.none => true
  | some t => now - t ≥ s.response_cooldown

/-- Result dict of `FocusEvaluator.evaluate`. -/
structure EvalResult where
  state : String
  previous_state : String
  focus_score : Int
  response : Option String
  persona : String
deriving DecidableEq

/-- `FocusEvaluator.evaluate`: classify the score against the thresholds,
update the hysteresis bookkeeping, and on `RED` with an open cooldown window
generate a response and stamp `last_response_time`.  The dict accesses
`analysis.get("focus_score", 50)` / `analysis.get("observations", "")` are
resolved at the call boundary, so the score and observation text are
parameters here. -/
def evaluate (gen : String → String → Option String) (s : EvalState)
    (focus_score : Int) (observations persona : String) (now : Int) :
    EvalState × EvalResult :=
  let s1 := { s with last_score := some focus_score }
  let step :=
    if focus_score ≥ s1.green_threshold then
      ("GREEN", { s1 with yellow_since := Option.none })
    else if focus_score ≥ s1.yellow_threshold then
      ("YELLOW", if s1.current_state = "GREEN" then { s1 with yellow_since := some now } else s1)
    else
      ("RED", s1)
  let new_state := step.1
  let s2 := step.2
  let prev_state := s2.current_state
  let s3 := { s2 with current_state := new_state }
  let base : EvalResult :=
    { state := new_state, previous_state := prev_state, focus_score := focus_score,
      response := Option.none, persona := persona }
  if new_state = "RED" then
    if shouldGenerateResponse s3 now then
      ({ s3 with last_response_time := some now },
       { base with response := some (generateResponse gen observations persona) })
    else (s3, base)
  else (s3, base)

/-- One input to a call of `evaluate` in a sampling sequence. -/
structure EvalStep where
  score : Int
  observations : String
  persona : String
  now : Int
deriving DecidableEq

/-- A sequence of `evaluate` calls, returning the final session state and the
`response` field of each result in order. -/
def runEval (gen : String → String → Option String) (s : EvalState) :
    List EvalStep → EvalState × List (Option String)
  | [] => (s, [])
  | st :: rest =>
    let r := evaluate gen s st.score st.observations st.persona st.now
    let tail := runEval gen r.1 rest
    (tail.1, r.2.response :: tail.2)

/-! Configuration loading (`config.py`).  The YAML document already parsed by
`yaml.safe_load` is a `PyVal`; `get_focus_thresholds` is `config.get("focus",
defaults)`, raising (`AttributeError`) only when the document itself is not a
mapping, and `FocusEvaluator.__init__` then reads the two thresholds with
`.get(..., default)`. `Except.error` models initialisation raising, i.e. the
service failing to start. -/

/-- Default thresholds dict in `get_focus_thresholds`. -/
def focusDefaults : PyVal :=
  .dict [("green_threshold", .int 50), ("yellow_threshold", .int 25)]

/-- `get_focus_thresholds()` on a loaded configuration document. -/
def getFocusThresholds (config : PyVal) : Except String PyVal :=
  match config with
  | .dict d => .ok ((lookupLast "focus" d).getD focusDefaults)
  | _ => .error "AttributeError"

/-- Threshold attribute initialisation of `FocusEvaluator.__init__` (the
analyzer's `__init__` reads them identically): returns the two values
assigned to `self.green_threshold` / `self.yellow_threshold`, or an error
when initialisation raises. -/
def evaluatorInitThresholds (config : PyVal) : Except String (PyVal × PyVal) :=
  match getFocusThresholds config with
  | .ok (.dict d) =>
    .ok ((lookupLast "green_threshold" d).getD (.int 50),
         (lookupLast "yellow_threshold" d).getD (.int 25))
  | .ok _ => .error "AttributeError"
  | .error e => .error e

/-! The shared state store (`api_server.py`).  `_shared_state` is a dict with
a fixed set of keys; every mutating handler runs under `_state_lock`, so each
`with _state_lock:` block is one atomic action on the store.  Two models are
used.  The value model below treats the aggregate as a record of Python
values and each lock-protected block as one state transformation; it backs
the whitelist, event-log and bounded-history properties and the interleaving
analysis of `POST /status`.  A second, reference-aware model (`StoreDict` /
`PyMem` further down) keeps the two history lists in a heap addressed by
references, which is needed to reason about `dict.copy()` in
`get_shared_state`. -/

/-- The bounded-FIFO append discipline used for `events` and
`focus_history`: `l.append(e)` followed by `if len(l) > 100: l = l[-100:]`. -/
def boundedAppend {α : Type} (l : List α) (e : α) : List α :=
  let l' := l ++ [e]
  if l'.length > 100 then l'.drop (l'.length - 100) else l'

/-- The `_shared_state` aggregate, one field per key of the initial dict. -/
structure Shared where
  state : PyVal
  uptime : PyVal
  latest_image : PyVal
  latest_analysis : PyVal
  persona : PyVal
  events : PyVal
  last_response : PyVal
  start_time : PyVal
  sampling_active : PyVal
  focus_score : PyVal
  focus_history : PyVal

/-- The initial `_shared_state` dict, with process start instant `t0`. -/
def initialShared (t0 : Nat) : Shared :=
  { state := .str "UNKNOWN", uptime := .str "00:00:00", latest_image := .none,
    latest_analysis := .dict [], persona := .str "Hal", events := .list [],
    last_response := .none, start_time := .time t0, sampling_active := .bool false,
    focus_score := .none, focus_history := .list [] }

/-- The keys of `_shared_state`; membership is the `if key in _shared_state`
whitelist test of `update_shared_state`. -/
def sharedKeys : List String :=
  ["state", "uptime", "latest_image", "latest_analysis", "persona", "events",
   "last_response", "start_time", "sampling_active", "focus_score", "focus_history"]

/-- One iteration of the update loop in `update_shared_state`:
`if key in _shared_state: _shared_state[key] = value`, a key outside the
whitelist leaving the store untouched. -/
def applyField (s : Shared) (k : String) (v : PyVal) : Shared :=
  if k = "state" then { s with state := v }
  else if k = "uptime" then { s with uptime := v }
  else if k = "latest_image" then { s with latest_image := v }
  else if k = "latest_analysis" then { s with latest_analysis := v }
  else if k = "persona" then { s with persona := v }
  else if k = "events" then { s with events := v }
  else if k = "last_response" then { s with last_response := v }
  else if k = "start_time" then { s with start_time := v }
  else if k = "sampling_active" then { s with sampling_active := v }
  else if k = "focus_score" then { s with focus_score := v }
  else if k = "focus_history" then { s with focus_history := v }
  else s

/-- An event dict `{"timestamp": ..., "message": ...}`. -/
def mkEvent (ts msg : String) : PyVal :=
  .dict [("timestamp", .str ts), ("message", .str msg)]

/-- The event logged on a state change:
`{"timestamp": now, "message": f"State changed to {v}"}`. -/
def stateChangeEvent (nowS : String) (v : PyVal) : PyVal :=
  mkEvent nowS ("State changed to " ++ pyStr v)

/-- `update_shared_state(updates)` at wall-clock string `nowS`: apply the
whitelisted fields, and when the update carries a `state` key append one
state-change event and truncate — all of it one lock-protected atomic block
in the source. `Except.error` models the `.append` raising if `events` were
not a list. -/
def updateSharedState (nowS : String) (updates : List (String × PyVal)) (s : Shared) :
    Except String Shared :=
  let s' := updates.foldl (fun st kv => applyField st kv.1 kv.2) s
  let ev := stateChangeEvent nowS ((lookupLast "state" updates).getD .none)
  if "state" ∈ updates.map Prod.fst then
    match s'.events with
    | .list l => .ok { s' with events := .list (boundedAppend l ev) }
    | _ => .error "AttributeError"
  else .ok s'

/-- First lock-protected block of the `POST /status` handler: the four
guarded field assignments (note the request keys `analysis`/`image` land in
`latest_analysis`/`latest_image`). -/
def updateStatusFields (data : List (String × PyVal)) (s : Shared) : Shared :=
  let s := if "state" ∈ data.map Prod.fst then
    { s with state := (lookupLast "state" data).getD .none } else s
  let s := if "analysis" ∈ data.map Prod.fst then
    { s with latest_analysis := (lookupLast "analysis" data).getD .none } else s
  let s := if "image" ∈ data.map Prod.fst then
    { s with latest_image := (lookupLast "image" data).getD .none } else s
  if "focus_score" ∈ data.map Prod.fst then
    { s with focus_score := (lookupLast "focus_score" data).getD .none } else s

/-- The event built between the two lock acquisitions of `POST /status`:
`f"State changed to {data.get('state', 'UNKNOWN')}"` — built and appended
whether or not the request carried a `state` key. -/
def updateStatusEvent (nowS : String) (data : List (String × PyVal)) : PyVal :=
  stateChangeEvent nowS ((lookupLast "state" data).getD (.str "UNKNOWN"))

/-- Second lock-protected block of the `POST /status` handler: append the
event and truncate.  The handler acquires `_state_lock` afresh for this
block, so other threads run between `updateStatusFields` and this action.
(The non-list branch, where Python would raise, returns the store unchanged;
it is unreachable from stores whose `events` is a list, which covers every
run considered here.) -/
def updateStatusAppendEvent (nowS : String) (data : List (String × PyVal)) (s : Shared) : Shared :=
  match s.events with
  | .list l => { s with events := .list (boundedAppend l (updateStatusEvent nowS data)) }
  | _ => s

/-- Snapshots a reader can observe around a sequence of atomic actions: the
store before any action and after each prefix of them.  A handler made of two
`with _state_lock:` blocks contributes two actions, so the state between its
blocks is observable; `update_shared_state` is a single action. -/
def observableStates : List (Shared → Shared) → Shared → List Shared
  | [], s0 => [s0]
  | a :: rest, s0 => s0 :: observableStates rest (a s0)

/-- The `focus_history` entry built by the `POST /focus-history` handler:
`{"timestamp": data.get("timestamp", now.isoformat()), "score": data.get("score", 0)}`. -/
def histEntry (nowIso : String) (data : List (String × PyVal)) : PyVal :=
  .dict [("timestamp", (lookupLast "timestamp" data).getD (.str nowIso)),
         ("score", (lookupLast "score" data).getD (.int 0))]

/-- Lock-protected block of the `POST /focus-history` handler: append the
entry to `focus_history` and truncate to the last 100. -/
def addFocusHistory (nowIso : String) (data : List (String × PyVal)) (s : Shared) :
    Except String Shared :=
  match s.focus_history with
  | .list l => .ok { s with focus_history := .list (boundedAppend l (histEntry nowIso data)) }
  | _ => .error "AttributeError"

/-- A sequence of `POST /focus-history` requests applied in order. -/
def runFocusHistoryPosts (s : Shared) :
    List (String × List (String × PyVal)) → Except String Shared
  | [] => .ok s
  | (nowIso, data) :: rest =>
    match addFocusHistory nowIso data s with
    | .ok s' => runFocusHistoryPosts s' rest
    | .error e => .error e

/-- A sequence of `update_shared_state` calls applied in order. -/
def runStateUpdates (s : Shared) :
    List (String × List (String × PyVal)) → Except String Shared
  | [] => .ok s
  | (nowS, u) :: rest =>
    match updateSharedState nowS u s with
    | .ok s' => runStateUpdates s' rest
    | .error e => .error e

/-! Reference-aware store model for `get_shared_state`.  In CPython the two
history values of `_shared_state` are list objects; `_shared_state.copy()` is
a shallow copy, duplicating the dict but not the lists.  `StoreDict` is a
dict value whose list-valued keys hold heap references, `PyMem` pairs the
stored dict with the heap of list objects, and a snapshot is a `StoreDict`
sharing the same references. -/

/-- The `_shared_state` dict with its two list-valued keys as heap
references. -/
structure StoreDict where
  state : PyVal
  uptime : PyVal
  latest_image : PyVal
  latest_analysis : PyVal
  persona : PyVal
  eventsRef : Nat
  last_response : PyVal
  start_time : Nat
  sampling_active : PyVal
  focus_score : PyVal
  historyRef : Nat

/-- The stored dict together with the heap of list objects. -/
structure PyMem where
  shared : StoreDict
  heap : Nat → List PyVal

/-- Initial memory: the initial dict, `events` at reference 0 and
`focus_history` at reference 1, both empty. -/
def initialPyMem (t0 : Nat) : PyMem :=
  { shared :=
    { state := .str "UNKNOWN", uptime := .str "00:00:00", latest_image := .none,
      latest_analysis := .dict [], persona := .str "Hal", eventsRef := 0,
      last_response := .none, start_time := t0, sampling_active := .bool false,
      focus_score := .none, historyRef := 1 },
    heap := fun _ => [] }

/-- Two-digit zero padding of `f"{n:02d}"`. -/
def fmt2 (n : Nat) : String :=
  if n < 10 then "0" ++ toString n else toString n

/-- The `HH:MM:SS` uptime string computed by `get_shared_state` via two
`divmod`s from the elapsed seconds. -/
def fmtUptime (total : Nat) : String :=
  fmt2 (total / 3600) ++ ":" ++ fmt2 (total % 3600 / 60) ++ ":" ++ fmt2 (total % 3600 % 60)

/-- `get_shared_state()` at instant `now`: under the lock, recompute `uptime`
from the fixed `start_time`, store it, and return `_shared_state.copy()` — a
new dict value carrying the same heap references. -/
def getSharedState (now : Nat) (m : PyMem) : StoreDict × PyMem :=
  let d := { m.shared with uptime := PyVal.str (fmtUptime (now - m.shared.start_time)) }
  (d, { m with shared := d })

/-- A caller mutating the events list reachable from a returned snapshot
(`snapshot["events"].append(x)`): the heap cell behind the snapshot's
reference changes. -/
def snapshotAppendEvent (snap : StoreDict) (x : PyVal) (m : PyMem) : PyMem :=
  { m with heap := fun n => if n = snap.eventsRef then m.heap n ++ [x] else m.heap n }

/-- The events list a subsequent reader of the STORE sees: the heap cell
behind the stored dict's own reference. -/
def storedEvents (m : PyMem) : List PyVal :=
  m.heap m.shared.eventsRef

/-! Theorems. -/

/-- C1: with configured thresholds `yellow_threshold < green_threshold`, an
evaluated score lands in `GREEN` iff it is at least `green_threshold`, in
`YELLOW` iff it is in `[yellow_threshold, green_threshold)`, and in `RED`
below `yellow_threshold`; a score equal to a threshold classifies into the
higher band.  The state returned by `FocusEvaluator.evaluate` is exactly the
shared classification chain `classifyScore`, the one `_parse_analysis` also
applies. -/
theorem C1_classifier_bands (gen : String → String → Option String) (s : EvalState)
    (score : Int) (obs persona : String) (now : Int)
    (h : s.yellow_threshold < s.green_threshold) :
    (evaluate gen s score obs persona now).2.state
        = classifyScore s.green_threshold s.yellow_threshold score
    ∧ (score ≥ s.green_threshold →
        (evaluate gen s score obs persona now).2.state = "GREEN")
    ∧ (s.yellow_threshold ≤ score ∧ score < s.green_threshold →
        (evaluate gen s score obs persona now).2.state = "YELLOW")
    ∧ (score < s.yellow_threshold →
        (evaluate gen s score obs persona now).2.state = "RED") := by
  have hstate : (evaluate gen s score obs persona now).2.state
      = classifyScore s.green_threshold s.yellow_threshold score := by
    by_cases h1 : score ≥ s.green_threshold
    · simp [evaluate, classifyScore, h1]
    · by_cases h2 : score ≥ s.yellow_threshold
      · simp [evaluate, classifyScore, h1, h2, apply_ite]
      · simp [evaluate, classifyScore, h1, h2, apply_ite]
  refine ⟨hstate, ?_, ?_, ?_⟩
  · intro hg
    rw [hstate, classifyScore, if_pos hg]
  · rintro ⟨hy, hg⟩
    rw [hstate, classifyScore, if_neg (by omega), if_pos (by omega)]
  · intro hr
    rw [hstate, classifyScore, if_neg (by omega), if_neg (by omega)]

/-- Witness for C1 at the configured thresholds 50/25: the boundary score 50
classifies as GREEN. -/
theorem C1_classifier_bands_witness :
    (evaluate (fun _ _ => Option.none) (initEvalState 50 25) 50 "" "hal" 0).2.state = "GREEN" :=
  (C1_classifier_bands (fun _ _ => Option.none) (initEvalState 50 25) 50 "" "hal" 0
    (by decide)).2.1 (by decide)

/-- C6 counterexample: the unparseable observation text
`"the user seems okay"` does yield score 50, but with
`green_threshold = 50` / `yellow_threshold = 25` the resulting state is
`GREEN` (the boundary score 50 classifies into the higher band), not
`YELLOW` as claimed. -/
theorem C6_counterexample :
    (parseAnalysis 50 25 "the user seems okay").focus_score = 50
    ∧ (parseAnalysis 50 25 "the user seems okay").state = "GREEN"
    ∧ (parseAnalysis 50 25 "the user seems okay").state ≠ "YELLOW" :=
  ⟨rfl, rfl, by decide⟩

/-- C6 amended: parsing `"the user seems okay"` (no structured object, no
digit token) yields score 50, the raw text as observation, and — with
thresholds 50/25 — state `GREEN`, since `50 ≥ green_threshold`. -/
theorem C6_amended_prose_fallback :
    parseAnalysis 50 25 "the user seems okay" =
      { focus_score := 50, state := "GREEN",
        observations := PyVal.str "the user seems okay", focused := true } := rfl

/-- C7 counterexample: for the empty raw text the parser finds neither a
structured object nor a number and returns score 50, but the observation is
the (empty) 200-character prefix of the raw text — empty, and not the fixed
failure string `"Failed to parse analysis"` the claim promises. -/
theorem C7_counterexample :
    (parseAnalysis 50 25 "").focus_score = 50
    ∧ (parseAnalysis 50 25 "").observations = PyVal.str ""
    ∧ PyVal.str "" ≠ PyVal.str "Failed to parse analysis" :=
  ⟨rfl, rfl, by simp⟩

/-- C7 amended: when neither a structured object nor a bare 1-3 digit number
is found (and nothing throws) the parser returns score 50 with the first 200
characters of the raw text as observation — an empty observation when the
raw text is empty, and a nonempty one whenever the raw text is nonempty; the
fixed failure observation `"Failed to parse analysis"` (also with score 50)
is produced only when a parse step throws, e.g. when the brace match is not
valid JSON. -/
theorem C7_amended_fallbacks :
    (∀ (g y : Int) (raw : String), searchBrace raw.data = Option.none →
        findNumber Option.none raw.data = Option.none →
        (parseAnalysis g y raw).focus_score = 50
          ∧ (parseAnalysis g y raw).observations = PyVal.str (String.mk (raw.data.take 200)))
    ∧ (∀ (g y : Int) (raw : String) (m : List Char), searchBrace raw.data = some m →
        jsonLoads m = Option.none →
        parseAnalysis g y raw = defaultResponse "Failed to parse analysis")
    ∧ (∀ (g y : Int) (raw : String), raw.data ≠ [] → searchBrace raw.data = Option.none →
        (parseAnalysis g y raw).observations ≠ PyVal.str "") := by
  refine ⟨?_, ?_, ?_⟩
  · intro g y raw h1 h2
    simp [parseAnalysis, extractScoreObs, h1, h2, clampScore]
  · intro g y raw m h1 h2
    simp [parseAnalysis, extractScoreObs, h1, h2]
  · intro g y raw hne h1
    have hobs : (parseAnalysis g y raw).observations = PyVal.str (String.mk (raw.data.take 200)) := by
      simp [parseAnalysis, extractScoreObs, h1]
    rw [hobs]
    intro hcontra
    have hdata : raw.data.take 200 = ([] : List Char) := by
      have := congrArg String.data (by injection hcontra)
      simpa using this
    cases hd : raw.data with
    | nil => exact hne hd
    | cons c cs => rw [hd] at hdata; simp at hdata

/-- Witness for C7 amended, at the prose input `"hello"` (no braces, no
digits) and the throwing input `"{not json}"`. -/
theorem C7_amended_fallbacks_witness :
    ((parseAnalysis 50 25 "hello").focus_score = 50
      ∧ (parseAnalysis 50 25 "hello").observations = PyVal.str (String.mk ("hello".data.take 200)))
    ∧ parseAnalysis 50 25 "\x7bnot json\x7d" = defaultResponse "Failed to parse analysis"
    ∧ (parseAnalysis 50 25 "hello").observations ≠ PyVal.str "" :=
  ⟨C7_amended_fallbacks.1 50 25 "hello" (by decide) (by decide),
   C7_amended_fallbacks.2.1 50 25 "\x7bnot json\x7d" ('{' :: "not json".data ++ ['}'])
     (by decide) rfl,
   C7_amended_fallbacks.2.2 50 25 "hello" (by decide) (by decide)⟩

/-- C8: every score returned by the parser lies in `[0, 100]` — each
successful extraction is clamped and the exception fallback returns 50 — and
concretely, structured input with `score=150` is clamped to 100 while
`score=73` is returned exactly. -/
theorem C8_clamped_scores :
    (∀ (g y : Int) (raw : String),
        0 ≤ (parseAnalysis g y raw).focus_score ∧ (parseAnalysis g y raw).focus_score ≤ 100)
    ∧ (parseAnalysis 50 25 "\x7b\"focus_score\": 150, \"observations\": \"x\"\x7d").focus_score = 100
    ∧ (parseAnalysis 50 25 "\x7b\"focus_score\": 73, \"observations\": \"x\"\x7d").focus_score = 73 := by
  refine ⟨?_, rfl, rfl⟩
  intro g y raw
  cases h : extractScoreObs raw.data with
  | none => simp [parseAnalysis, h, defaultResponse]
  | some p =>
    have : (parseAnalysis g y raw).focus_score = clampScore p.1 := by
      simp [parseAnalysis, h]
    rw [this]
    unfold clampScore
    omega

/-- Helper: `evaluate` never changes the configured thresholds or the
cooldown constant. -/
theorem evaluate_preserves_config (gen : String → String → Option String)
    (s : EvalState) (sc : Int) (o p : String) (now : Int) :
    (evaluate gen s sc o p now).1.green_threshold = s.green_threshold
    ∧ (evaluate gen s sc o p now).1.yellow_threshold = s.yellow_threshold
    ∧ (evaluate gen s sc o p now).1.response_cooldown = s.response_cooldown := by
  simp only [evaluate]
  split_ifs <;> simp

/-- Helper: a RED evaluation from a state with no previous response (the
first-ever action) generates a response and stamps `last_response_time`. -/
theorem evaluate_red_first (gen : String → String → Option String)
    (s : EvalState) (sc : Int) (o p : String) (now : Int)
    (h1 : sc < s.yellow_threshold) (h2 : s.yellow_threshold ≤ s.green_threshold)
    (hl : s.last_response_time = Option.none) :
    (evaluate gen s sc o p now).2.response = some (generateResponse gen o p)
    ∧ (evaluate gen s sc o p now).1.last_response_time = some now := by
  have hg : ¬ (sc ≥ s.green_threshold) := by omega
  have hy : ¬ (sc ≥ s.yellow_threshold) := by omega
  simp [evaluate, hg, hy, shouldGenerateResponse, hl]

/-- Helper: a RED evaluation from a state whose last response was stamped at
`t` generates a response exactly when `now - t` has reached the cooldown, and
stamps or keeps `last_response_time` accordingly. -/
theorem evaluate_red_some (gen : String → String → Option String)
    (s : EvalState) (sc : Int) (o p : String) (now t : Int)
    (h1 : sc < s.yellow_threshold) (h2 : s.yellow_threshold ≤ s.green_threshold)
    (hl : s.last_response_time = some t) :
    (evaluate gen s sc o p now).2.response
        = (if now - t ≥ s.response_cooldown then some (generateResponse gen o p) else Option.none)
    ∧ (evaluate gen s sc o p now).1.last_response_time
        = (if now - t ≥ s.response_cooldown then some now else some t) := by
  have hg : ¬ (sc ≥ s.green_threshold) := by omega
  have hy : ¬ (sc ≥ s.yellow_threshold) := by omega
  by_cases hcool : now - t ≥ s.response_cooldown
  · simp [evaluate, hg, hy, shouldGenerateResponse, hl, hcool]
  · simp [evaluate, hg, hy, shouldGenerateResponse, hl, hcool]

/-- Helper: inside an open cooldown window no evaluation — RED or not —
produces a response or moves `last_response_time` or the cooldown. -/
theorem evaluate_window (gen : String → String → Option String)
    (s : EvalState) (sc : Int) (o p : String) (now t : Int)
    (hc : s.response_cooldown = 30) (hl : s.last_response_time = some t)
    (hn : now - t < 30) :
    (evaluate gen s sc o p now).2.response = Option.none
    ∧ (evaluate gen s sc o p now).1.last_response_time = some t
    ∧ (evaluate gen s sc o p now).1.response_cooldown = 30 := by
  have hng : ¬ (now - t ≥ s.response_cooldown) := by omega
  simp only [evaluate, shouldGenerateResponse, hl, hc] at *
  split_ifs <;> simp_all
  omega

/-- Helper: whenever `evaluate` returns a response, it stamps
`last_response_time` with the evaluation instant. -/
theorem evaluate_stamps (gen : String → String → Option String)
    (s : EvalState) (sc : Int) (o p : String) (now : Int)
    (h : (evaluate gen s sc o p now).2.response ≠ Option.none) :
    (evaluate gen s sc o p now).1.last_response_time = some now := by
  simp only [evaluate] at *
  split_ifs at * <;> simp_all

/-- C2: for two consecutive RED evaluations (scores below
`yellow_threshold`, cooldown 30): an action is generated on the first
evaluation whenever none was ever generated before; and when the first
evaluation generated an action at `t1`, the second — at `t2` — returns null
action text if `t2 - t1 < 30` and non-null action text if `t2 - t1 ≥ 30`. -/
theorem C2_action_cooldown (gen : String → String → Option String)
    (s : EvalState) (sc1 sc2 : Int) (o1 o2 p1 p2 : String) (t1 t2 : Int)
    (hc : s.response_cooldown = 30)
    (hyg : s.yellow_threshold ≤ s.green_threshold)
    (h1 : sc1 < s.yellow_threshold) (h2 : sc2 < s.yellow_threshold) :
    (s.last_response_time = Option.none →
      (evaluate gen s sc1 o1 p1 t1).2.response ≠ Option.none)
    ∧ ((evaluate gen s sc1 o1 p1 t1).2.response ≠ Option.none →
        (t2 - t1 < 30 →
          (evaluate gen (evaluate gen s sc1 o1 p1 t1).1 sc2 o2 p2 t2).2.response = Option.none)
        ∧ (t2 - t1 ≥ 30 →
          (evaluate gen (evaluate gen s sc1 o1 p1 t1).1 sc2 o2 p2 t2).2.response
            ≠ Option.none)) := by
  constructor
  · intro hl
    rw [(evaluate_red_first gen s sc1 o1 p1 t1 h1 hyg hl).1]
    simp
  · intro hres
    have hl1 : (evaluate gen s sc1 o1 p1 t1).1.last_response_time = some t1 :=
      evaluate_stamps gen s sc1 o1 p1 t1 hres
    have hcfg := evaluate_preserves_config gen s sc1 o1 p1 t1
    have hred := evaluate_red_some gen (evaluate gen s sc1 o1 p1 t1).1 sc2 o2 p2 t2 t1
      (by omega) (by omega) hl1
    constructor
    · intro hlt
      rw [hred.1, if_neg (by omega)]
    · intro hge
      rw [hred.1, if_pos (by omega)]
      simp

/-- Witness for C2: a first-ever RED evaluation (score 10 < 25) returns
non-null action text. -/
theorem C2_action_cooldown_witness :
    (evaluate (fun _ _ => Option.none) (initEvalState 50 25) 10 "" "hal" 0).2.response
      ≠ Option.none :=
  (C2_action_cooldown (fun _ _ => Option.none) (initEvalState 50 25) 10 10 "" "" "hal" "hal"
    0 20 rfl (by decide) (by decide) (by decide)).1 rfl

/-- C10: the action cooldown is global across the whole evaluation sequence,
not scoped to a RED episode.  Once `last_response_time = t`, any sequence of
evaluations whose instants all lie before `t + 30` — whatever their scores,
including GREEN or YELLOW excursions and RED re-entries — produces only null
responses and leaves `last_response_time` at `t` (no non-RED transition ever
clears it); and whenever an evaluation does produce an action, it sets
`last_response_time` to that evaluation's instant. -/
theorem C10_global_cooldown (gen : String → String → Option String)
    (s : EvalState) (t : Int) (steps : List EvalStep)
    (hc : s.response_cooldown = 30) (hl : s.last_response_time = some t)
    (hwin : ∀ st ∈ steps, st.now - t < 30) :
    ((runEval gen s steps).1.last_response_time = some t
      ∧ ∀ r ∈ (runEval gen s steps).2, r = Option.none)
    ∧ (∀ (s0 : EvalState) (sc : Int) (o p : String) (n : Int),
        (evaluate gen s0 sc o p n).2.response ≠ Option.none →
        (evaluate gen s0 sc o p n).1.last_response_time = some n) := by
  constructor
  · induction steps generalizing s with
    | nil => exact ⟨hl, by simp [runEval]⟩
    | cons st rest ih =>
      have hstep := evaluate_window gen s st.score st.observations st.persona st.now t hc hl
        (hwin st (by simp))
      have hrec := ih (evaluate gen s st.score st.observations st.persona st.now).1
        hstep.2.2 hstep.2.1 (fun x hx => hwin x (by simp [hx]))
      refine ⟨by simpa [runEval] using hrec.1, ?_⟩
      intro r hr
      simp only [runEval, List.mem_cons] at hr
      rcases hr with h | h
      · rw [h]
        exact hstep.1
      · exact hrec.2 r h
  · intro s0 sc o p n h
    exact evaluate_stamps gen s0 sc o p n h

/-- Witness for C10: after an action at `t = 0`, a GREEN evaluation at 5 and
a RED re-entry at 10 both return null responses and keep the stamp. -/
theorem C10_global_cooldown_witness :
    (runEval (fun _ _ => Option.none)
        { initEvalState 50 25 with last_response_time := some 0 }
        [⟨80, "", "hal", 5⟩, ⟨10, "", "hal", 10⟩]).1.last_response_time = some 0
    ∧ ∀ r ∈ (runEval (fun _ _ => Option.none)
        { initEvalState 50 25 with last_response_time := some 0 }
        [⟨80, "", "hal", 5⟩, ⟨10, "", "hal", 10⟩]).2, r = Option.none :=
  (C10_global_cooldown (fun _ _ => Option.none)
    { initEvalState 50 25 with last_response_time := some 0 } 0
    [⟨80, "", "hal", 5⟩, ⟨10, "", "hal", 10⟩] rfl rfl (by decide)).1

/-- Helper: `boundedAppend` written as a plain conditional. -/
theorem boundedAppend_eq {α : Type} (l : List α) (e : α) :
    boundedAppend l e = if (l ++ [e]).length > 100
      then (l ++ [e]).drop ((l ++ [e]).length - 100) else l ++ [e] := rfl

/-- Helper: folding the append-then-truncate discipline over any number of
entries retains exactly the suffix of the most recent 100, in order. -/
theorem boundedAppend_foldl {α : Type} (xs : List α) :
    List.foldl boundedAppend ([] : List α) xs = xs.drop (xs.length - 100) := by
  induction xs using List.reverseRecOn with
  | nil => rfl
  | append_singleton ys e ih =>
    rw [List.foldl_append, List.foldl_cons, List.foldl_nil, ih]
    by_cases h : ys.length < 100
    · have h0 : ys.length - 100 = 0 := by omega
      rw [h0, List.drop_zero, boundedAppend_eq]
      have hL : (ys ++ [e]).length = ys.length + 1 := by simp
      rw [hL, if_neg (by omega)]
      have h1 : ys.length + 1 - 100 = 0 := by omega
      rw [h1, List.drop_zero]
    · have hdl : (ys.drop (ys.length - 100)).length = 100 := by
        rw [List.length_drop]; omega
      rw [boundedAppend_eq]
      have hL2 : (ys.drop (ys.length - 100) ++ [e]).length = 101 := by
        rw [List.length_append, hdl]; rfl
      rw [hL2, if_pos (by omega)]
      have h101 : (101 : Nat) - 100 = 1 := rfl
      rw [h101, List.drop_append_of_le_length (by rw [hdl]; omega), List.drop_drop]
      have hR : (ys ++ [e]).length - 100 = ys.length - 99 := by
        simp only [List.length_append, List.length_cons, List.length_nil]; omega
      rw [hR, List.drop_append_of_le_length (by omega)]
      have hidx : ys.length - 100 + 1 = ys.length - 99 := by omega
      rw [hidx]

/-- Helper: a key outside the whitelist leaves the store untouched. -/
theorem applyField_unknown (s : Shared) (k : String) (v : PyVal) (h : k ∉ sharedKeys) :
    applyField s k v = s := by
  simp only [sharedKeys, List.mem_cons, List.not_mem_nil, or_false, not_or] at h
  obtain ⟨h1, h2, h3, h4, h5, h6, h7, h8, h9, h10, h11⟩ := h
  unfold applyField
  rw [if_neg h1, if_neg h2, if_neg h3, if_neg h4, if_neg h5, if_neg h6, if_neg h7,
    if_neg h8, if_neg h9, if_neg h10, if_neg h11]

/-- Helper: applying any key other than `events` leaves the event log
untouched. -/
theorem applyField_events (s : Shared) (k : String) (v : PyVal) (h : k ≠ "events") :
    (applyField s k v).events = s.events := by
  unfold applyField
  by_cases h1 : k = "state"
  · rw [if_pos h1]
  · rw [if_neg h1]
    by_cases h2 : k = "uptime"
    · rw [if_pos h2]
    · rw [if_neg h2]
      by_cases h3 : k = "latest_image"
      · rw [if_pos h3]
      · rw [if_neg h3]
        by_cases h4 : k = "latest_analysis"
        · rw [if_pos h4]
        · rw [if_neg h4]
          by_cases h5 : k = "persona"
          · rw [if_pos h5]
          · rw [if_neg h5]
            rw [if_neg h]
            by_cases h7 : k = "last_response"
            · rw [if_pos h7]
            · rw [if_neg h7]
              by_cases h8 : k = "start_time"
              · rw [if_pos h8]
              · rw [if_neg h8]
                by_cases h9 : k = "sampling_active"
                · rw [if_pos h9]
                · rw [if_neg h9]
                  by_cases h10 : k = "focus_score"
                  · rw [if_pos h10]
                  · rw [if_neg h10]
                    by_cases h11 : k = "focus_history"
                    · rw [if_pos h11]
                    · rw [if_neg h11]

/-- Helper: the field-application loop of `update_shared_state` leaves the
event log untouched when no update key is `events`. -/
theorem foldl_applyField_events (updates : List (String × PyVal)) (s : Shared)
    (h : "events" ∉ updates.map Prod.fst) :
    (updates.foldl (fun st kv => applyField st kv.1 kv.2) s).events = s.events := by
  induction updates generalizing s with
  | nil => rfl
  | cons kv rest ih =>
    simp only [List.map_cons, List.mem_cons, not_or] at h
    rw [List.foldl_cons, ih _ h.2]
    exact applyField_events s kv.1 kv.2 (fun he => h.1 he.symm)

/-- Helper: a run of `POST /focus-history` requests from a store whose
history is the list `l` succeeds and folds the bounded append over the
entries. -/
theorem runFocusHistoryPosts_history (posts : List (String × List (String × PyVal)))
    (s : Shared) (l : List PyVal) (h : s.focus_history = PyVal.list l) :
    (runFocusHistoryPosts s posts).map (fun t => t.focus_history)
      = .ok (PyVal.list (List.foldl boundedAppend l
          (posts.map (fun p => histEntry p.1 p.2)))) := by
  induction posts generalizing s l with
  | nil => simp [runFocusHistoryPosts, Except.map, h]
  | cons p rest ih =>
    obtain ⟨nowIso, data⟩ := p
    have hstep : addFocusHistory nowIso data s
        = .ok { s with focus_history := PyVal.list (boundedAppend l (histEntry nowIso data)) } := by
      simp [addFocusHistory, h]
    simp only [runFocusHistoryPosts, hstep, List.map_cons, List.foldl_cons]
    exact ih _ _ rfl

/-- Helper: a run of `update_shared_state` calls, each carrying exactly a
`state` field, succeeds and folds the bounded append of state-change events
over the event log. -/
theorem runStateUpdates_single (xs : List (String × PyVal)) (s : Shared) (l : List PyVal)
    (h : s.events = PyVal.list l) :
    (runStateUpdates s (xs.map (fun p => (p.1, [("state", p.2)])))).map (fun t => t.events)
      = .ok (PyVal.list (List.foldl boundedAppend l
          (xs.map (fun p => stateChangeEvent p.1 p.2)))) := by
  induction xs generalizing s l with
  | nil => simp [runStateUpdates, Except.map, h]
  | cons p rest ih =>
    obtain ⟨nowS, v⟩ := p
    have hstep : updateSharedState nowS [("state", v)] s
        = .ok { { s with state := v } with
            events := PyVal.list (boundedAppend l (stateChangeEvent nowS v)) } := by
      simp [updateSharedState, applyField, lookupLast, h]
    simp only [List.map_cons, runStateUpdates, hstep, List.foldl_cons]
    exact ih _ _ rfl

/-- C3: starting from the initial store, after `posts.length` appends to
`focus_history` (via `POST /focus-history`) and `xs.length` state updates
appending to `events` (via `update_shared_state`), each sequence holds
exactly the most recent `min(length, 100)` appended entries, in insertion
order — the oldest entries having been evicted first. -/
theorem C3_bounded_history (t0 : Nat) (posts : List (String × List (String × PyVal)))
    (xs : List (String × PyVal)) :
    ((runFocusHistoryPosts (initialShared t0) posts).map (fun t => t.focus_history)
        = .ok (PyVal.list ((posts.map (fun p => histEntry p.1 p.2)).drop (posts.length - 100)))
      ∧ ((posts.map (fun p => histEntry p.1 p.2)).drop (posts.length - 100)).length
        = min posts.length 100)
    ∧ ((runStateUpdates (initialShared t0) (xs.map (fun p => (p.1, [("state", p.2)])))).map
          (fun t => t.events)
        = .ok (PyVal.list ((xs.map (fun p => stateChangeEvent p.1 p.2)).drop (xs.length - 100)))
      ∧ ((xs.map (fun p => stateChangeEvent p.1 p.2)).drop (xs.length - 100)).length
        = min xs.length 100) := by
  refine ⟨⟨?_, ?_⟩, ?_, ?_⟩
  · rw [runFocusHistoryPosts_history posts (initialShared t0) [] rfl, boundedAppend_foldl]
    rw [List.length_map]
  · rw [List.length_drop, List.length_map]; omega
  · rw [runStateUpdates_single xs (initialShared t0) [] rfl, boundedAppend_foldl]
    rw [List.length_map]
  · rw [List.length_drop, List.length_map]; omega

/-- The full effect of one `POST /status` request on the store: the field
phase followed by the event phase (each a separate lock-protected block in
the handler). -/
def updateStatus (nowS : String) (data : List (String × PyVal)) (s : Shared) : Shared :=
  updateStatusAppendEvent nowS data (updateStatusFields data s)

/-- C4 counterexample: the `POST /status` handler releases `_state_lock`
between writing the fields and appending the event, so the intermediate
store — state already `"RED"`, event log still empty — is one of the
snapshots a concurrent reader can observe, contradicting the claimed
atomicity; moreover the handler appends an event even for a request carrying
no `state` field at all (here `{"focus_score": 5}`), contradicting the
claimed append-iff-state-field. -/
theorem C4_counterexample :
    (updateStatusFields [("state", PyVal.str "RED")] (initialShared 0)
        ∈ observableStates
            [updateStatusFields [("state", PyVal.str "RED")],
             updateStatusAppendEvent "00:00:01" [("state", PyVal.str "RED")]]
            (initialShared 0)
      ∧ (updateStatusFields [("state", PyVal.str "RED")] (initialShared 0)).state
          = PyVal.str "RED"
      ∧ (updateStatusFields [("state", PyVal.str "RED")] (initialShared 0)).events
          = PyVal.list []
      ∧ (initialShared 0).state = PyVal.str "UNKNOWN")
    ∧ ("state" ∉ ([("focus_score", PyVal.int 5)].map (Prod.fst (β := PyVal)))
      ∧ (updateStatus "00:00:02" [("focus_score", PyVal.int 5)] (initialShared 0)).events
          ≠ PyVal.list []) := by
  refine ⟨⟨List.Mem.tail _ (List.Mem.head _), rfl, rfl, rfl⟩, by decide, ?_⟩
  intro h
  injection h with h2
  exact List.cons_ne_nil _ _ h2

/-- C4 amended: `update_shared_state` behaves as claimed — unknown keys are
ignored without error, an event is appended and the log truncated exactly
when the update carries a `state` field, and the whole update is one atomic
lock-protected action, so a reader observes only the store before or after
it.  The atomicity part does NOT extend to the `POST /status` handler, which
uses two separate lock scopes (see the counterexample). -/
theorem C4_amended_store_update (nowS : String) (updates : List (String × PyVal))
    (s : Shared) (l : List PyVal) (k : String) (v : PyVal)
    (hev : s.events = PyVal.list l) (hupd : "events" ∉ updates.map Prod.fst)
    (hk : k ∉ sharedKeys) :
    applyField s k v = s
    ∧ ("state" ∈ updates.map Prod.fst →
        (updateSharedState nowS updates s).map (fun t => t.events)
          = .ok (PyVal.list (boundedAppend l
              (stateChangeEvent nowS ((lookupLast "state" updates).getD PyVal.none)))))
    ∧ ("state" ∉ updates.map Prod.fst →
        (updateSharedState nowS updates s).map (fun t => t.events) = .ok (PyVal.list l))
    ∧ (∀ (act : Shared → Shared) (o : Shared), o ∈ observableStates [act] s →
        o = s ∨ o = act s) := by
  have hfold := foldl_applyField_events updates s hupd
  refine ⟨applyField_unknown s k v hk, ?_, ?_, ?_⟩
  · intro hst
    simp [updateSharedState, hst, hfold, hev, Except.map]
  · intro hst
    simp [updateSharedState, hst, hfold, hev, Except.map]
  · intro act o ho
    simpa [observableStates] using ho

/-- Witness for C4 amended: an unknown key applied to the initial store
leaves it unchanged, and a `state`-carrying update appends exactly one
event. -/
theorem C4_amended_store_update_witness :
    applyField (initialShared 0) "bogus" (PyVal.int 1) = initialShared 0
    ∧ (updateSharedState "00:00:01" [("state", PyVal.str "RED")] (initialShared 0)).map
        (fun t => t.events)
      = .ok (PyVal.list (boundedAppend []
          (stateChangeEvent "00:00:01" ((lookupLast "state"
            [("state", PyVal.str "RED")]).getD PyVal.none)))) :=
  ⟨(C4_amended_store_update "00:00:01" [("state", PyVal.str "RED")] (initialShared 0) []
      "bogus" (PyVal.int 1) rfl (by decide) (by decide)).1,
   (C4_amended_store_update "00:00:01" [("state", PyVal.str "RED")] (initialShared 0) []
      "bogus" (PyVal.int 1) rfl (by decide) (by decide)).2.1 (by decide)⟩

/-- C5 counterexample: `get_shared_state` returns `_shared_state.copy()`, a
shallow copy whose `events` entry is the same list object as the store's.
Appending through the returned snapshot changes the events a subsequent
reader of the store sees from `[]` to the appended entry — the snapshot is
not an independent copy at the nested level. -/
theorem C5_counterexample :
    storedEvents (getSharedState 5 (initialPyMem 0)).2 = []
    ∧ storedEvents (snapshotAppendEvent (getSharedState 5 (initialPyMem 0)).1
        (mkEvent "00:00:05" "note") (getSharedState 5 (initialPyMem 0)).2)
      = [mkEvent "00:00:05" "note"]
    ∧ storedEvents (snapshotAppendEvent (getSharedState 5 (initialPyMem 0)).1
        (mkEvent "00:00:05" "note") (getSharedState 5 (initialPyMem 0)).2)
      ≠ storedEvents (getSharedState 5 (initialPyMem 0)).2 := by
  refine ⟨rfl, rfl, ?_⟩
  have h1 : storedEvents (snapshotAppendEvent (getSharedState 5 (initialPyMem 0)).1
      (mkEvent "00:00:05" "note") (getSharedState 5 (initialPyMem 0)).2)
      = [mkEvent "00:00:05" "note"] := rfl
  have h2 : storedEvents (getSharedState 5 (initialPyMem 0)).2 = [] := rfl
  rw [h1, h2]
  simp

/-- C5 amended: `get_shared_state` computes `uptime` on demand from the
fixed start timestamp (which it never changes), and the snapshot it returns
is a shallow copy — its nested `events` list is the store's own list object,
so an append through the snapshot is an append to the stored list. -/
theorem C5_amended_shallow_copy (now t0 : Nat) (m : PyMem) (snap : StoreDict) (x : PyVal)
    (hstart : m.shared.start_time = t0) (href : snap.eventsRef = m.shared.eventsRef) :
    (getSharedState now m).1.uptime = PyVal.str (fmtUptime (now - t0))
    ∧ (getSharedState now m).2.shared.start_time = t0
    ∧ storedEvents (snapshotAppendEvent snap x m) = storedEvents m ++ [x] := by
  refine ⟨by simp [getSharedState, hstart], by simp [getSharedState, hstart], ?_⟩
  simp [snapshotAppendEvent, storedEvents, href]

/-- Witness for C5 amended at the initial memory, read at instant 5. -/
theorem C5_amended_shallow_copy_witness :
    (getSharedState 5 (initialPyMem 0)).1.uptime = PyVal.str (fmtUptime (5 - 0))
    ∧ (getSharedState 5 (initialPyMem 0)).2.shared.start_time = 0
    ∧ storedEvents (snapshotAppendEvent (initialPyMem 0).shared (PyVal.int 1) (initialPyMem 0))
      = storedEvents (initialPyMem 0) ++ [PyVal.int 1] :=
  C5_amended_shallow_copy 5 0 (initialPyMem 0) (initialPyMem 0).shared (PyVal.int 1) rfl rfl

/-- Helper: looking up a key absent from an association list yields
nothing. -/
theorem lookupLast_not_mem (k : String) (d : List (String × PyVal))
    (h : k ∉ d.map Prod.fst) : lookupLast k d = Option.none := by
  induction d with
  | nil => rfl
  | cons kv rest ih =>
    simp only [List.map_cons, List.mem_cons, not_or] at h
    have h1 : kv.1 ≠ k := fun he => h.1 he.symm
    simp [lookupLast, ih h.2, h1]

/-- C9 counterexample: a configuration with no `focus` section (and hence no
thresholds at all) does not make initialisation raise — `config.get` and
`dict.get` substitute the defaults 50/25 and the service starts normally. -/
theorem C9_counterexample :
    evaluatorInitThresholds (PyVal.dict []) = .ok (PyVal.int 50, PyVal.int 25)
    ∧ (evaluatorInitThresholds (PyVal.dict [])).isOk = true :=
  ⟨rfl, rfl⟩

/-- C9 amended: a missing `focus` section, or missing threshold keys inside
it, fall back to the defaults 50/25 and startup succeeds; only a `focus`
entry that is not a mapping makes initialisation raise; and the action
cooldown (30 s) and history capacity (100) are hardcoded constants, not
configuration, so they can never be missing or malformed. -/
theorem C9_amended_config_defaults :
    (∀ (d : List (String × PyVal)), "focus" ∉ d.map Prod.fst →
        evaluatorInitThresholds (PyVal.dict d) = .ok (PyVal.int 50, PyVal.int 25))
    ∧ evaluatorInitThresholds (PyVal.dict [("focus", PyVal.dict [])])
        = .ok (PyVal.int 50, PyVal.int 25)
    ∧ (∀ (n : Int), evaluatorInitThresholds (PyVal.dict [("focus", PyVal.int n)])
        = .error "AttributeError")
    ∧ (∀ (g y : Int), (initEvalState g y).response_cooldown = 30)
    ∧ (∀ (l : List PyVal) (e : PyVal), (boundedAppend l e).length ≤ 100) := by
  refine ⟨?_, rfl, fun n => rfl, fun g y => rfl, ?_⟩
  · intro d h
    simp [evaluatorInitThresholds, getFocusThresholds, lookupLast_not_mem "focus" d h,
      focusDefaults, lookupLast]
  · intro l e
    rw [boundedAppend_eq]
    by_cases h : (l ++ [e]).length > 100
    · rw [if_pos h, List.length_drop]
      omega
    · rw [if_neg h]
      omega

/-- Witness for C9 amended: a configuration knowing only a persona key
starts with the default thresholds. -/
theorem C9_amended_config_defaults_witness :
    evaluatorInitThresholds (PyVal.dict [("persona", PyVal.str "hal")])
      = .ok (PyVal.int 50, PyVal.int 25) :=
  C9_amended_config_defaults.1 [("persona", PyVal.str "hal")] (by decide)
